import Mathlib

/-!
Verification development for the flightsense-go enrichment pipeline.

The development is a shallow embedding of the repository code:
the persistent deduplicating cache (cache/cache.go), the weather
resolver (weather/weather.go), the record parser (parse/parse.go with
flight.ToSlice), and the pipeline coordinator (processFile / Worker /
printer).  Machine integers are modeled as Nat/Int, Go strings as lists
of characters, float64 column values as exact rationals (the claims
never exercise float rounding), and fallible code returns Option/Except.
-/

set_option maxHeartbeats 1000000

/-- Go strings are modeled as lists of characters. -/
abbrev Str := List Char

/-- Convert a Lean string literal to the model string type. -/
def strL (s : String) : Str := s.data

/-- Splitter helper: first field and remaining fields of a string split at
every occurrence of a separator character. -/
def splitAux (sep : Char) : Str → Str × List Str
  | [] => ([], [])
  | c :: rest =>
    let r := splitAux sep rest
    if c = sep then ([], r.1 :: r.2) else (c :: r.1, r.2)

/-- Model of Go strings.Split with a one-character separator: every
occurrence of the separator splits; empty fields are kept. -/
def splitOnCh (sep : Char) (s : Str) : List Str :=
  (splitAux sep s).1 :: (splitAux sep s).2

/-- Serialize lines to file content, one trailing newline per line, the way
the cache writers (Export, appendFile) emit records. -/
def joinNL (ls : List Str) : Str := ls.foldr (fun l acc => l ++ '\n' :: acc) []

/-- First-match association lookup, mirroring map lookup where the first
stored binding for a key is authoritative. -/
def lookupA {α : Type} : List (Str × α) → Str → Option α
  | [], _ => none
  | (k', v) :: rest, k => if k' = k then some v else lookupA rest k

/-- State of a cache.Cache: the in-memory map (an association list in
insertion order whose first binding per key is authoritative, mirroring
sync.Map with LoadOrStore) and the backing file modeled as the list of
records appended so far.  The value type is a parameter: claims about the
string cache instantiate it with Str, claims about the weather resolver
with the decoded observation (the JSON encode/decode at that boundary is
a bijection on the records involved). -/
structure CacheState (α : Type) where
  data : List (Str × α)
  file : List (Str × α)
deriving DecidableEq

/-- The empty cache over an empty backing file. -/
def CacheState.empty {α : Type} : CacheState α := ⟨[], []⟩

/-- cache.Get: a point lookup against the in-memory map only. -/
def CacheState.get {α : Type} (c : CacheState α) (k : Str) : Option α :=
  lookupA c.data k

/-- cache.Set: sync.Map.LoadOrStore, followed on a first-time store by an
append of the record to the backing file.  `diskOk` models whether the
append I/O succeeds; the Go code discards the appendFile error entirely
and returns nil on every path, which the second component (always none)
records faithfully. -/
def CacheState.set {α : Type} (c : CacheState α) (k : Str) (v : α)
    (diskOk : Bool) : CacheState α × Option Str :=
  match lookupA c.data k with
  | some _ => (c, none)
  | none =>
    ({ data := c.data ++ [(k, v)],
       file := if diskOk then c.file ++ [(k, v)] else c.file }, none)

/-- cache.Export, as the content it writes: one key_value line per
in-memory entry (the gzip layer is a transparent encoding and is not
modeled; Export rewrites the whole file). -/
def CacheState.exportContent (c : CacheState Str) : Str :=
  joinNL (c.data.map (fun kv => kv.1 ++ '_' :: kv.2))

/-- The LoadOrStore step used by cache.Load (no disk append; a duplicate
key is logged and the first occurrence retained). -/
def loadStore (c : CacheState Str) (k v : Str) : CacheState Str :=
  match lookupA c.data k with
  | some _ => c
  | none => { c with data := c.data ++ [(k, v)] }

/-- cache.Load, applied to the content of the backing file it reads: scan
each line, split on the underscore delimiter, keep only lines with exactly
two fields, first occurrence of a key wins.  (Note the Go Load opens the
fixed path "weather.cache" irrespective of its filename argument; the
model takes the content of the file actually read.) -/
def loadContent (s : Str) : CacheState Str :=
  (splitOnCh '\n' s).foldl
    (fun c line =>
      match splitOnCh '_' line with
      | [k, v] => loadStore c k v
      | _ => c)
    CacheState.empty

/-- Airline reference entity (airlines-go lookup result); only the name is
observed by the pipeline output. -/
structure Airline where
  name : Str
deriving DecidableEq

/-- Airport reference entity (airports-go lookup result); the IATA code
keys the weather cache and the tz names the departure time zone.  The
latitude/longitude passed to the provider are functions of the airport
and are absorbed into the abstract fetch function. -/
structure Airport where
  iata : Str
  tz : Str
deriving DecidableEq

/-- One weather data point as decoded from the provider (darksky
DataPoint): its own Unix timestamp plus the fields the pipeline reads.
Numeric float64 fields are modeled as exact rationals. -/
structure DataPoint where
  time : Int
  temperature : Rat
  precipType : Str
  precipIntensity : Rat
deriving DecidableEq

/-- A provider response: the conditions at the requested instant
(Currently) and the hourly block (Hourly.Data). -/
structure WResp where
  currently : DataPoint
  hourly : List DataPoint
deriving DecidableEq

/-- The weather cache: keys are digests, values the (decoded) serialized
observations. -/
abbrev WCache := CacheState DataPoint

/-- Go time.Round(time.Hour) on a Unix timestamp: round to the nearest
multiple of 3600 seconds, halves rounding up.  (Go rounds relative to its
internal zero instant, which lies a whole number of hours before the Unix
epoch, and rounds halves away from zero; for instants after year 1 this is
exactly half-up on Unix seconds.) -/
def roundHour (t : Int) : Int :=
  let r := t % 3600
  if 2 * r < 3600 then t - r else t + (3600 - r)

/-- Decimal rendering of an integer, modeling fmt.Sprint on an int64. -/
def intToStr (i : Int) : Str := (toString i).data

/-- The sha1 hex digest used to key the cache, modeled as an injective
encoding of its input string (no claim depends on the digest bytes, only
on equal inputs giving equal keys). -/
def hashKey (s : Str) : Str := s

/-- The cache key the resolver computes for a location code and a Unix
timestamp: hash of the code concatenated with the printed timestamp. -/
def weatherKey (iata : Str) (t : Int) : Str := hashKey (iata ++ intToStr t)

/-- weather.aggressivelyCache: Set every hourly data point under its own
key hash(iata + that point's own timestamp).  Set is insert-if-absent, so
an already-present key keeps its first value; appends succeed (disk
failures are a separate concern modeled in the cache claims). -/
def aggressivelyCache (c : WCache) (iata : Str) (pts : List DataPoint) :
    WCache :=
  pts.foldl (fun c p => (c.set (weatherKey iata p.time) p true).1) c

/-- Result of one weather.Get call: the observation returned, the cache
afterwards, and whether an external fetch was performed. -/
structure WGetResult where
  obs : DataPoint
  cache : WCache
  fetched : Bool
deriving DecidableEq

/-- weather.Get: round the instant to the nearest hour, look the digest up
in the cache; on a hit decode and return the cached payload with no fetch;
on a miss perform the external fetch (`fetch` abstracts the darksky call
for the airport at the rounded hour, returning none on a provider error,
on which the Go code calls log.Fatalf — modeled as a none result, the
whole-process fatal), backfill the cache with every hourly point, and
return the decoded Currently block. -/
def weatherGet (fetch : Airport → Int → Option WResp) (a : Airport)
    (t : Int) (c : WCache) : Option WGetResult :=
  let rnd := roundHour t
  match c.get (weatherKey a.iata rnd) with
  | some p => some ⟨p, c, false⟩
  | none =>
    match fetch a rnd with
    | none => none
    | some resp =>
      some ⟨resp.currently, aggressivelyCache c a.iata resp.hourly, true⟩

/-- A Go time.Time as the pipeline observes it: the displayed wall-clock
fields (Year/Month/Day/Hour/Minute) plus the absolute instant in Unix
seconds.  The zero value displays year 1, January 1, 00:00 UTC. -/
structure GoTime where
  year : Nat
  month : Nat
  day : Nat
  hour : Nat
  minute : Nat
  unix : Int
deriving DecidableEq

/-- Days from 1970-01-01 of the civil date y-m-d (proleptic Gregorian,
year 1 onwards), the standard days-from-civil computation. -/
def daysFromCivil (y mo d : Nat) : Int :=
  let y' : Int := if mo ≤ 2 then (y : Int) - 1 else (y : Int)
  let era : Int := (if 0 ≤ y' then y' else y' - 399) / 400
  let yoe : Int := y' - era * 400
  let mp : Int := ((mo : Int) + 9) % 12
  let doy : Int := (153 * mp + 2) / 5 + (d : Int) - 1
  let doe : Int := yoe * 365 + yoe / 4 - yoe / 100 + doy
  era * 146097 + doe - 719468

/-- The Unix timestamp of a wall-clock reading taken in UTC (time.Parse
with no zone in the layout yields UTC). -/
def unixOf (y mo d h mi : Nat) : Int :=
  86400 * daysFromCivil y mo d + 3600 * (h : Int) + 60 * (mi : Int)

/-- The Go zero time.Time: year 1, January 1, 00:00. -/
def zeroTime : GoTime := ⟨1, 1, 1, 0, 0, unixOf 1 1 1 0 0⟩

/-- Whether a year is a Gregorian leap year. -/
def isLeap (y : Nat) : Bool := y % 4 = 0 && (y % 100 ≠ 0 || y % 400 = 0)

/-- Days in a month of a year. -/
def daysInMonth (y mo : Nat) : Nat :=
  if mo = 2 then (if isLeap y then 29 else 28)
  else if mo = 4 ∨ mo = 6 ∨ mo = 9 ∨ mo = 11 then 30
  else 31

/-- Numeric value of a decimal digit character, if it is one. -/
def digitVal (c : Char) : Option Nat :=
  if '0' ≤ c ∧ c ≤ '9' then some (c.toNat - 48) else none

/-- Two decimal digits as a number. -/
def twoDigits (a b : Char) : Option Nat := do
  let x ← digitVal a
  let y ← digitVal b
  pure (10 * x + y)

/-- Go time.Parse with the fixed layout "15042006-01-02" (HHMM then
YYYY-MM-DD): exactly fourteen characters, digits and two dashes, with the
clock and calendar fields range-checked the way Go validates them.  The
result carries the parsed wall clock (in UTC) and its instant. -/
def parseGoTime (s : Str) : Option GoTime :=
  match s with
  | [h1, h2, mi1, mi2, y1, y2, y3, y4, s1, mo1, mo2, s2, d1, d2] =>
    if s1 = '-' ∧ s2 = '-' then do
      let h ← twoDigits h1 h2
      let mi ← twoDigits mi1 mi2
      let yHi ← twoDigits y1 y2
      let yLo ← twoDigits y3 y4
      let mo ← twoDigits mo1 mo2
      let d ← twoDigits d1 d2
      let y := 100 * yHi + yLo
      if h ≤ 23 ∧ mi ≤ 59 ∧ 1 ≤ mo ∧ mo ≤ 12 ∧ 1 ≤ d ∧ d ≤ daysInMonth y mo
      then pure ⟨y, mo, d, h, mi, unixOf y mo d h mi⟩
      else none
    else none
  | _ => none

/-- strconv.ParseFloat on the plain decimal forms the delay column uses:
an optional sign, an integer part and an optional fraction, valued as an
exact rational.  (Exponent and hexadecimal forms do not occur in the data
and are not modeled; at the whole-minute granularity the claims observe,
exact rational arithmetic agrees with float64.) -/
def parseDec (s : Str) : Option Rat :=
  let core : Str := match s with
    | '-' :: r => r
    | '+' :: r => r
    | r => r
  let neg : Bool := match s with
    | '-' :: _ => true
    | _ => false
  let intPart := core.takeWhile (fun c => '0' ≤ c && c ≤ '9')
  let rest := core.dropWhile (fun c => '0' ≤ c && c ≤ '9')
  let fracPart : Str := match rest with
    | '.' :: r => r.takeWhile (fun c => '0' ≤ c && c ≤ '9')
    | _ => []
  let rest2 : Str := match rest with
    | '.' :: r => r.dropWhile (fun c => '0' ≤ c && c ≤ '9')
    | r => r
  let digitsToNat (l : Str) : Nat := l.foldl (fun n c => 10 * n + (c.toNat - 48)) 0
  if rest2 = [] ∧ (intPart ≠ [] ∨ fracPart ≠ []) then
    let v : Rat := (digitsToNat intPart : Rat) +
      (digitsToNat fracPart : Rat) / ((10 : Rat) ^ fracPart.length)
    some (if neg then -v else v)
  else none

/-- External collaborators of the parser: the airline/airport reference
lookups, time.LoadLocation, and the wall-clock effect of time.Time.In for
a location (zone conversion leaves the instant unchanged but redisplays
the wall clock; the zone database itself is external). -/
structure Env where
  airlines : Str → Option Airline
  airports : Str → Option Airport
  loadLocation : Str → Option Str
  timeIn : GoTime → Str → GoTime

/-- The flight.Flight record; field defaults are the Go zero values. -/
structure Flight where
  date : Str := []
  carrier : Airline := ⟨[]⟩
  origin : Airport := ⟨[], []⟩
  destination : Airport := ⟨[], []⟩
  scheduledDep : GoTime := zeroTime
  actualDep : GoTime := zeroTime
  delay : Int := 0
  cancelled : Bool := false
  cancellationCode : Str := []
  diverted : Bool := false
  dst : Str := []
  tempOrigin : Rat := 0
  precipIntensityOrigin : Rat := 0
  precipTypeOrigin : Str := []
  tempDest : Rat := 0
  precipIntensityDest : Rat := 0
  precipTypeDest : Str := []
deriving DecidableEq

/-- Accumulator of parse.parse over the row entries: the flight under
construction, the four column values held back for the post-loop phase,
and the loaded origin time zone. -/
structure PAcc where
  f : Flight := {}
  crsDepTime : Str := []
  depTime : Str := []
  depDelay : Str := []
  weatherDelay : Str := []
  location : Option Str := none
deriving DecidableEq

/-- The columns the switch in parse.parse dispatches on. -/
inductive Col
  | flDate | carrier | origin | dest | cancelled | crsDepTime
  | cancellationCode | depTime | depDelay | diverted | weatherDelay | other
deriving DecidableEq

/-- The guard chain of the switch in parse.parse: which case a column
name selects. -/
def colOf (k : Str) : Col :=
  if k = strL "FL_DATE" then .flDate
  else if k = strL "CARRIER" then .carrier
  else if k = strL "ORIGIN" then .origin
  else if k = strL "DEST" then .dest
  else if k = strL "CANCELLED" then .cancelled
  else if k = strL "CRS_DEP_TIME" then .crsDepTime
  else if k = strL "CANCELLATION_CODE" then .cancellationCode
  else if k = strL "DEP_TIME" then .depTime
  else if k = strL "DEP_DELAY" then .depDelay
  else if k = strL "DIVERTED" then .diverted
  else if k = strL "WEATHER_DELAY" then .weatherDelay
  else .other

/-- How a row can fail to parse.  `rowError` is an error the Go code
returns to its caller (a failed airline/airport lookup, a failed
LoadLocation, an unparseable timestamp or delay): Worker logs it and
skips only that row.  `panic` is a Go runtime panic — parse.go reaches
f.ScheduledDep.In(location) with a nil location when the row has no valid
ORIGIN column but a parseable clock — which kills the whole process, not
just the row. -/
inductive ParseFail
  | rowError (e : Str)
  | panic (e : Str)
deriving DecidableEq

/-- One iteration of the switch in parse.parse over a row entry (k, v). -/
def parseStep (env : Env) (acc : PAcc) (k v : Str) : Except ParseFail PAcc :=
  match colOf k with
  | .flDate => .ok { acc with f := { acc.f with date := v } }
  | .carrier =>
    match env.airlines v with
    | none => .error (.rowError (strL "could not find airline"))
    | some carrier => .ok { acc with f := { acc.f with carrier := carrier } }
  | .origin =>
    match env.airports v with
    | none => .error (.rowError (strL "could not find airport"))
    | some orig =>
      match env.loadLocation orig.tz with
      | none => .error (.rowError (strL "could not load location"))
      | some loc =>
        .ok { acc with f := { acc.f with origin := orig }, location := some loc }
  | .dest =>
    match env.airports v with
    | none => .error (.rowError (strL "could not find airport"))
    | some dest => .ok { acc with f := { acc.f with destination := dest } }
  | .cancelled =>
    .ok { acc with f := { acc.f with cancelled := v = strL "1.00" } }
  | .crsDepTime => .ok { acc with crsDepTime := v }
  | .cancellationCode =>
    .ok { acc with f := { acc.f with cancellationCode := v } }
  | .depTime => .ok { acc with depTime := v }
  | .depDelay => .ok { acc with depDelay := v }
  | .diverted =>
    .ok { acc with f := { acc.f with diverted := v = strL "1.00" } }
  | .weatherDelay => .ok { acc with weatherDelay := v }
  | .other => .ok acc

/-- The loop of parse.parse over the row entries.  (Go map iteration
order is arbitrary; each case touches a distinct field, so any fixed
order is observationally equal — entries are processed left to right.) -/
def parseLoop (env : Env) : List (Str × Str) → PAcc → Except ParseFail PAcc
  | [], acc => .ok acc
  | (k, v) :: rest, acc =>
    match parseStep env acc k v with
    | .error e => .error e
    | .ok acc' => parseLoop env rest acc'

/-- The post-loop phase of parse.parse: when the flight is not cancelled,
parse the scheduled and actual departure instants (clock "2400" read as
"2359"), convert each into the origin time zone, and compute the delay —
from DEP_DELAY, truncated and floored at zero, but only when a
WEATHER_DELAY value was present and nonempty, else zero.  When the origin
location is nil (no valid ORIGIN column) and the scheduled clock parses,
the Go code panics in time.Time.In, killing the process: that case is the
`ParseFail.panic` outcome, which the pipeline treats as fatal, never as a
row skip; every other failure is a returned error (`ParseFail.rowError`),
skipped by the caller. -/
def parseFinish (env : Env) (acc : PAcc) : Except ParseFail Flight :=
  if acc.f.cancelled then .ok acc.f
  else
    let crs := if acc.crsDepTime = strL "2400" then strL "2359" else acc.crsDepTime
    match parseGoTime (crs ++ acc.f.date) with
    | none => .error (.rowError (strL "could not parse CRS_DEP_TIME"))
    | some t1 =>
      match acc.location with
      | none => .error (.panic (strL "nil origin location"))
      | some loc =>
        let sched := env.timeIn t1 loc
        let dt := if acc.depTime = strL "2400" then strL "2359" else acc.depTime
        match parseGoTime (dt ++ acc.f.date) with
        | none => .error (.rowError (strL "could not parse DEP_TIME"))
        | some t2 =>
          let actual := env.timeIn t2 loc
          if acc.weatherDelay ≠ [] then
            match parseDec acc.depDelay with
            | none => .error (.rowError (strL "could not parse DEP_DELAY"))
            | some q =>
              .ok { acc.f with
                    scheduledDep := sched
                    actualDep := actual
                    delay := if q < 0 then 0 else q.floor }
          else
            .ok { acc.f with
                  scheduledDep := sched
                  actualDep := actual
                  delay := 0 }

/-- parse.parse: fold the switch over the row, then the post-loop phase. -/
def parse (env : Env) (row : List (Str × Str)) : Except ParseFail Flight :=
  match parseLoop env row {} with
  | .error e => .error e
  | .ok acc => parseFinish env acc

/-- Decimal rendering of a Nat, modeling fmt.Sprint on an int. -/
def natToStr (n : Nat) : Str := (toString n).data

/-- Go "%02d" on a nonnegative field. -/
def pad2 (n : Nat) : Str := if n < 10 then '0' :: natToStr n else natToStr n

/-- Go time.Month.String for months 1..12 (other values never reach the
serializer in the claims). -/
def monthName (mo : Nat) : Str :=
  if mo = 1 then strL "January" else if mo = 2 then strL "February"
  else if mo = 3 then strL "March" else if mo = 4 then strL "April"
  else if mo = 5 then strL "May" else if mo = 6 then strL "June"
  else if mo = 7 then strL "July" else if mo = 8 then strL "August"
  else if mo = 9 then strL "September" else if mo = 10 then strL "October"
  else if mo = 11 then strL "November" else strL "December"

/-- strconv.FormatBool. -/
def boolToStr (b : Bool) : Str := if b then strL "true" else strL "false"

/-- strconv.FormatFloat(v, f, -1, 64) as a fixed injective rendering of
the exact value (no claim inspects these four fields). -/
def ratToStr (q : Rat) : Str := (toString q).data

/-- flight.ToSlice: the 19-column output row. -/
def Flight.toSlice (f : Flight) : List Str :=
  [f.date,
   natToStr f.scheduledDep.year,
   monthName f.scheduledDep.month,
   natToStr f.scheduledDep.day,
   f.carrier.name,
   f.origin.iata,
   f.destination.iata,
   pad2 f.scheduledDep.hour ++ pad2 f.scheduledDep.minute,
   pad2 f.actualDep.hour ++ pad2 f.actualDep.minute,
   intToStr f.delay,
   boolToStr f.cancelled,
   f.cancellationCode,
   boolToStr f.diverted,
   ratToStr f.tempOrigin,
   f.precipTypeOrigin,
   ratToStr f.precipIntensityOrigin,
   ratToStr f.tempDest,
   f.precipTypeDest,
   ratToStr f.precipIntensityDest]

/-- parse.getWeatherData: resolve the weather at the origin and at the
destination for the scheduled departure instant and write the enrichment
fields (precipitation type defaults to "none" with zero intensity when
the resolved intensity is zero).  A none result models the fatal
log.Fatalf inside weather.Get on an external fetch error — weather.Get
never returns a non-nil error, so the recoverable-error branch of Worker
after this call is dead code. -/
def getWeatherData (fetch : Airport → Int → Option WResp) (f : Flight)
    (c : WCache) : Option (Flight × WCache) :=
  match weatherGet fetch f.origin f.scheduledDep.unix c with
  | none => none
  | some r1 =>
    match weatherGet fetch f.destination f.scheduledDep.unix r1.cache with
    | none => none
    | some r2 =>
      some ({ f with
              tempOrigin := r1.obs.temperature
              precipTypeOrigin :=
                if r1.obs.precipIntensity = 0 then strL "none" else r1.obs.precipType
              precipIntensityOrigin :=
                if r1.obs.precipIntensity = 0 then 0 else r1.obs.precipIntensity
              tempDest := r2.obs.temperature
              precipTypeDest :=
                if r2.obs.precipIntensity = 0 then strL "none" else r2.obs.precipType
              precipIntensityDest :=
                if r2.obs.precipIntensity = 0 then 0 else r2.obs.precipIntensity },
            r2.cache)

/-- Observable pipeline state for one input file: the shared weather
cache, the in-flight row counter (the WaitGroup), the rows the printer
has written, and the number of skipped rows. -/
structure PipeState where
  cache : WCache
  inflight : Nat
  written : List (List Str)
  skipped : Nat
deriving DecidableEq

/-- One row through the coordinator and a worker: processFile increments
the in-flight counter before dispatching the row; Worker either skips it
on a returned parse error (logging and decrementing the counter) or
enriches it and forwards it to the printer, which writes it and
decrements the counter.  Two paths kill the process instead (none): a
parse-time panic (nil origin location reached by time.Time.In) and a
fatal fetch error inside the resolver (log.Fatalf); both leave the
counter held. -/
def processRow (env : Env) (fetch : Airport → Int → Option WResp)
    (st : PipeState) (row : List (Str × Str)) : Option PipeState :=
  let st1 : PipeState := { st with inflight := st.inflight + 1 }
  match parse env row with
  | .error (.panic _) => none
  | .error (.rowError _) =>
    some { st1 with skipped := st1.skipped + 1, inflight := st1.inflight - 1 }
  | .ok f =>
    match getWeatherData fetch f st1.cache with
    | none => none
    | some (f', c') =>
      some { st1 with
             cache := c'
             written := st1.written ++ [f'.toSlice]
             inflight := st1.inflight - 1 }

/-- processFile over the rows of one input file, sequentialized: rows are
dispatched in order and each reaches its terminal state (written or
skipped) before the next is accounted; a fatal resolver error aborts the
whole run (none), abandoning the remaining rows. -/
def runPipeline (env : Env) (fetch : Airport → Int → Option WResp) :
    List (List (Str × Str)) → PipeState → Option PipeState
  | [], st => some st
  | row :: rest, st =>
    match processRow env fetch st row with
    | none => none
    | some st' => runPipeline env fetch rest st'

/-- Whether a row parses successfully (used to count P in the accounting
claim). -/
def parseOk (env : Env) (row : List (Str × Str)) : Bool :=
  match parse env row with
  | .ok _ => true
  | .error _ => false

/-- A concrete collaborator environment For the worked §8 example: the AA
carrier and the JFK/LAX airports resolve, time zones load, and zone
conversion is the identity (a UTC-like zone). -/
def exEnv : Env where
  airlines := fun s => if s = strL "AA" then some ⟨strL "American Airlines"⟩ else none
  airports := fun s =>
    if s = strL "JFK" then some ⟨strL "JFK", strL "America/New_York"⟩
    else if s = strL "LAX" then some ⟨strL "LAX", strL "America/Los_Angeles"⟩
    else none
  loadLocation := fun tz => some tz
  timeIn := fun t _ => t

/-- The §8 end-to-end example row (no WEATHER_DELAY column). -/
def exRow : List (Str × Str) :=
  [(strL "FL_DATE", strL "2020-01-02"), (strL "CARRIER", strL "AA"),
   (strL "ORIGIN", strL "JFK"), (strL "DEST", strL "LAX"),
   (strL "CANCELLED", strL "0.00"), (strL "CRS_DEP_TIME", strL "0800"),
   (strL "DEP_TIME", strL "0815"), (strL "DEP_DELAY", strL "15"),
   (strL "DIVERTED", strL "0.00")]

/-- The §8 example row with a nonempty WEATHER_DELAY column added. -/
def exRowWD : List (Str × Str) := exRow ++ [(strL "WEATHER_DELAY", strL "3.00")]

/-- The §8 example row as a cancelled flight. -/
def exRowCancelled : List (Str × Str) :=
  [(strL "FL_DATE", strL "2020-01-02"), (strL "CARRIER", strL "AA"),
   (strL "ORIGIN", strL "JFK"), (strL "DEST", strL "LAX"),
   (strL "CANCELLED", strL "1.00"), (strL "CRS_DEP_TIME", strL "0800"),
   (strL "DEP_TIME", strL "0815"), (strL "DEP_DELAY", strL "15"),
   (strL "DIVERTED", strL "0.00")]

/-- A row whose carrier code has no reference entry: a parse failure. -/
def exRowBad : List (Str × Str) :=
  (strL "CARRIER", strL "ZZ") :: exRow

/-- A provider fetch that always answers with one fixed response (two
hourly points around the §8 departure hour). -/
def exFetch : Airport → Int → Option WResp := fun _ t =>
  some ⟨⟨t, 20, strL "rain", 1⟩, [⟨t, 20, strL "rain", 1⟩, ⟨t + 3600, 21, [], 0⟩]⟩

/-- A provider fetch that always fails (the fatal path). -/
def failFetch : Airport → Int → Option WResp := fun _ _ => none

/-- Projection used to state delay facts about a parse result. -/
def delayOf : Except ParseFail Flight → Option Int
  | .ok f => some f.delay
  | .error _ => none

/-- The flight of a successful parse result (zero flight on an error);
used to name concrete parse outputs in closed statements. -/
def toFlight : Except ParseFail Flight → Flight
  | .ok f => f
  | .error _ => {}

/-- The accumulator of a successful parse loop (default on an error). -/
def toAcc : Except ParseFail PAcc → PAcc
  | .ok acc => acc
  | .error _ => {}

/-- The state of a completed pipeline run (a default state on the fatal
path); used to name concrete runs in closed statements. -/
def toSt : Option PipeState → PipeState
  | some st => st
  | none => ⟨CacheState.empty, 0, [], 0⟩

/-- Whether a parse outcome is the process-killing panic (nil origin
location reached by time.Time.In). -/
def isPanic : Except ParseFail Flight → Bool
  | .error (.panic _) => true
  | _ => false

/-- A row with a parseable clock but no ORIGIN column: parse.go leaves
the location nil and panics in time.Time.In — the fatal, non-skippable
parse outcome. -/
def exRowPanic : List (Str × Str) :=
  [(strL "FL_DATE", strL "2020-01-02"), (strL "CRS_DEP_TIME", strL "0800")]

theorem lookupA_append {α : Type} (l1 l2 : List (Str × α)) (k : Str) :
    lookupA (l1 ++ l2) k =
      (match lookupA l1 k with
       | some v => some v
       | none => lookupA l2 k) := by
  induction l1 with
  | nil => simp [lookupA]
  | cons p rest ih =>
    obtain ⟨k', v⟩ := p
    by_cases hk : k' = k <;> simp [lookupA, hk, ih]

theorem get_set_fresh {α : Type} (c : CacheState α) (k : Str) (v : α)
    (d : Bool) (h : c.get k = none) : (c.set k v d).1.get k = some v := by
  unfold CacheState.get at *
  unfold CacheState.set
  rw [h]
  simp [lookupA_append, h, lookupA]

theorem set_eq_of_get {α : Type} (c : CacheState α) (k : Str) (v : α)
    (d : Bool) (w : α) (h : c.get k = some w) : c.set k v d = (c, none) := by
  unfold CacheState.get at h
  unfold CacheState.set
  rw [h]

theorem fold_set_present {α : Type} (vs : List α) (c : CacheState α)
    (k : Str) (d : Bool) (w : α) (h : c.get k = some w) :
    vs.foldl (fun st u => (st.set k u d).1) c = c := by
  induction vs with
  | nil => rfl
  | cons u rest ih => simp [set_eq_of_get c k u d w h, ih]

/-- C2: First-write-wins: on a cache where the key is not yet present,
Set(k, v1) then Set(k, v2) leave Get(k) = v1, and the second Set is a
no-op on the whole state (map and backing file alike) that returns nil. -/
theorem firstWriteWins {α : Type} (c : CacheState α) (k : Str) (v1 v2 : α)
    (d1 d2 : Bool) (h : c.get k = none) :
    (((c.set k v1 d1).1.set k v2 d2).1.get k = some v1) ∧
    ((c.set k v1 d1).1.set k v2 d2 = ((c.set k v1 d1).1, none)) := by
  have h1 : (c.set k v1 d1).1.get k = some v1 := get_set_fresh c k v1 d1 h
  have h2 := set_eq_of_get (c.set k v1 d1).1 k v2 d2 v1 h1
  exact ⟨by rw [h2]; exact h1, h2⟩

theorem firstWriteWins_witness :
    ((CacheState.empty (α := Str)).get (strL "k") = none) ∧
    ((((CacheState.empty (α := Str)).set (strL "k") (strL "a") true).1.set
        (strL "k") (strL "b") true).1.get (strL "k") = some (strL "a")) :=
  ⟨by decide,
   (firstWriteWins (CacheState.empty (α := Str)) (strL "k") (strL "a")
      (strL "b") true true (by decide)).1⟩

/-- C9 counterexample: when the disk append fails (diskOk = false), Set
still returns nil — the append error is not reported to the caller —
while the key stays present in the in-memory map.  cache.Set discards the
appendFile result, so the claim that the error is reported is false. -/
theorem setAppendFailure_counterexample :
    ((CacheState.empty (α := Str)).set (strL "k") (strL "a") false).2 = none ∧
    (((CacheState.empty (α := Str)).set (strL "k") (strL "a") false).1.get
      (strL "k") = some (strL "a")) := by
  constructor <;> decide

/-- C9 (amended): when the disk append performed by Set(k, v) fails, Set
silently discards the error and returns nil (it is never reported to the
caller); the key remains present in the in-memory map with value v, Get(k)
returns v thereafter, and no record reaches the backing file. -/
theorem setKeepsValueOnAppendFailure {α : Type} (c : CacheState α) (k : Str)
    (v : α) (h : c.get k = none) :
    (c.set k v false).2 = none ∧
    (c.set k v false).1.get k = some v ∧
    (c.set k v false).1.file = c.file := by
  unfold CacheState.get at h
  refine ⟨?_, get_set_fresh c k v false h, ?_⟩ <;>
    simp [CacheState.set, h]

theorem setKeepsValueOnAppendFailure_witness :
    ((CacheState.empty (α := Str)).get (strL "k") = none) ∧
    (((CacheState.empty (α := Str)).set (strL "k") (strL "a") false).2 = none ∧
     ((CacheState.empty (α := Str)).set (strL "k") (strL "a") false).1.get
        (strL "k") = some (strL "a") ∧
     ((CacheState.empty (α := Str)).set (strL "k") (strL "a") false).1.file =
        (CacheState.empty (α := Str)).file) :=
  ⟨by decide,
   setKeepsValueOnAppendFailure (CacheState.empty (α := Str)) (strL "k")
     (strL "a") (by decide)⟩

/-- C4: Concurrent dedup.  The only shared-state step of cache.Set is the
atomic sync.Map.LoadOrStore, so any concurrent execution of Set calls on
one key linearizes to some sequence of those calls; the theorem quantifies
over every such sequence (first value v, then the rest vs in any order).
Exactly one value — the linearization winner — enters the map, exactly one
record is appended to the backing file, and every losing Set leaves both
the map and the file untouched. -/
theorem concurrentDedup {α : Type} (c : CacheState α) (k : Str) (v : α)
    (vs : List α) (h : c.get k = none) :
    ((vs.foldl (fun st u => (st.set k u true).1) (c.set k v true).1).get k
       = some v) ∧
    ((vs.foldl (fun st u => (st.set k u true).1) (c.set k v true).1).file
       = c.file ++ [(k, v)]) := by
  have h1 : (c.set k v true).1.get k = some v := get_set_fresh c k v true h
  rw [fold_set_present vs _ k true v h1]
  refine ⟨h1, ?_⟩
  unfold CacheState.get at h
  unfold CacheState.set
  rw [h]
  simp

theorem concurrentDedup_witness :
    ((CacheState.empty (α := Str)).get (strL "k") = none) ∧
    (((([strL "b", strL "c"]).foldl (fun st u => (st.set (strL "k") u true).1)
        ((CacheState.empty (α := Str)).set (strL "k") (strL "a") true).1).get
        (strL "k") = some (strL "a")) ∧
     ((([strL "b", strL "c"]).foldl (fun st u => (st.set (strL "k") u true).1)
        ((CacheState.empty (α := Str)).set (strL "k") (strL "a") true).1).file
        = (CacheState.empty (α := Str)).file ++ [(strL "k", strL "a")])) :=
  ⟨by decide,
   concurrentDedup (CacheState.empty (α := Str)) (strL "k") (strL "a")
     [strL "b", strL "c"] (by decide)⟩

theorem splitAux_no_sep (sep : Char) (a : Str) (h : sep ∉ a) :
    splitAux sep a = (a, []) := by
  induction a with
  | nil => rfl
  | cons c rest ih =>
    simp only [List.mem_cons, not_or] at h
    simp [splitAux, ih h.2, Ne.symm h.1]

theorem splitAux_append (sep : Char) (a b : Str) (h : sep ∉ a) :
    splitAux sep (a ++ sep :: b) =
      (a, (splitAux sep b).1 :: (splitAux sep b).2) := by
  induction a with
  | nil => simp [splitAux]
  | cons c rest ih =>
    simp only [List.mem_cons, not_or] at h
    simp [splitAux, ih h.2, Ne.symm h.1]

theorem splitOnCh_pair (sep : Char) (k v : Str) (hk : sep ∉ k)
    (hv : sep ∉ v) : splitOnCh sep (k ++ sep :: v) = [k, v] := by
  simp [splitOnCh, splitAux_append sep k v hk, splitAux_no_sep sep v hv]

theorem splitOnCh_joinNL (ls : List Str) (h : ∀ l ∈ ls, '\n' ∉ l) :
    splitOnCh '\n' (joinNL ls) = ls ++ [[]] := by
  induction ls with
  | nil => rfl
  | cons l rest ih =>
    have h1 : '\n' ∉ l := h l (List.mem_cons_self l rest)
    have h2 : ∀ x ∈ rest, '\n' ∉ x := fun x hx => h x (List.mem_cons_of_mem l hx)
    calc splitOnCh '\n' (joinNL (l :: rest))
        = l :: splitOnCh '\n' (joinNL rest) := by
          show splitOnCh '\n' (l ++ '\n' :: joinNL rest) = _
          simp [splitOnCh, splitAux_append _ _ _ h1]
      _ = l :: (rest ++ [[]]) := by rw [ih h2]
      _ = (l :: rest) ++ [[]] := rfl

theorem lookupA_loadStore (acc : CacheState Str) (k1 v1 k : Str) :
    lookupA (loadStore acc k1 v1).data k =
      (match lookupA acc.data k with
       | some v => some v
       | none => if k1 = k then some v1 else none) := by
  cases h1 : lookupA acc.data k1 with
  | some w =>
    cases h2 : lookupA acc.data k with
    | some v => simp [loadStore, h1, h2]
    | none =>
      have hne : k1 ≠ k := by
        intro he
        rw [he, h2] at h1
        exact Option.noConfusion h1
      simp [loadStore, h1, h2, hne]
  | none =>
    cases h2 : lookupA acc.data k with
    | some v => simp [loadStore, h1, lookupA_append, h2]
    | none => simp [loadStore, h1, lookupA_append, h2, lookupA]

theorem fold_loadStore_lookup (ps : List (Str × Str)) (acc : CacheState Str)
    (k : Str) :
    lookupA (ps.foldl (fun c kv => loadStore c kv.1 kv.2) acc).data k =
      (match lookupA acc.data k with
       | some v => some v
       | none => lookupA ps k) := by
  induction ps generalizing acc with
  | nil => cases h : lookupA acc.data k <;> simp [lookupA, h]
  | cons p rest ih =>
    obtain ⟨k1, v1⟩ := p
    simp only [List.foldl_cons]
    rw [ih, lookupA_loadStore]
    cases h : lookupA acc.data k with
    | some v => simp [h]
    | none => by_cases hk : k1 = k <;> simp [lookupA, h, hk]

theorem fold_lines_eq (ps : List (Str × Str)) (acc : CacheState Str)
    (h : ∀ kv ∈ ps, '_' ∉ kv.1 ∧ '_' ∉ kv.2) :
    (ps.map (fun kv => kv.1 ++ '_' :: kv.2)).foldl
      (fun c line =>
        match splitOnCh '_' line with
        | [k, v] => loadStore c k v
        | _ => c) acc
    = ps.foldl (fun c kv => loadStore c kv.1 kv.2) acc := by
  induction ps generalizing acc with
  | nil => rfl
  | cons p rest ih =>
    obtain ⟨k1, v1⟩ := p
    have h1 := h (k1, v1) (List.mem_cons_self _ _)
    have h2 : ∀ kv ∈ rest, '_' ∉ kv.1 ∧ '_' ∉ kv.2 :=
      fun kv hkv => h kv (List.mem_cons_of_mem _ hkv)
    simp only [List.map_cons, List.foldl_cons]
    rw [splitOnCh_pair '_' k1 v1 h1.1 h1.2]
    exact ih _ h2

/-- A string free of the cache-file delimiters. -/
def cleanStr (s : Str) : Prop := '_' ∉ s ∧ '\n' ∉ s

instance (s : Str) : Decidable (cleanStr s) := by
  unfold cleanStr
  infer_instance

theorem loadContent_exportContent (c : CacheState Str)
    (hclean : ∀ kv ∈ c.data, cleanStr kv.1 ∧ cleanStr kv.2) :
    ∀ k, (loadContent c.exportContent).get k = c.get k := by
  intro k
  have hlines : ∀ l ∈ c.data.map (fun kv => kv.1 ++ '_' :: kv.2), '\n' ∉ l := by
    intro l hl
    rw [List.mem_map] at hl
    obtain ⟨kv, hkv, rfl⟩ := hl
    have := hclean kv hkv
    intro hmem
    rw [List.mem_append, List.mem_cons] at hmem
    rcases hmem with h1 | h2 | h3
    · exact this.1.2 h1
    · exact absurd h2 (by decide)
    · exact this.2.2 h3
  have hpairs : ∀ kv ∈ c.data, '_' ∉ kv.1 ∧ '_' ∉ kv.2 :=
    fun kv hkv => ⟨(hclean kv hkv).1.1, (hclean kv hkv).2.1⟩
  show (loadContent c.exportContent).get k = lookupA c.data k
  unfold loadContent CacheState.exportContent
  rw [splitOnCh_joinNL _ hlines, List.foldl_append, fold_lines_eq _ _ hpairs]
  have hstep :
      List.foldl
        (fun c line =>
          match splitOnCh '_' line with
          | [k, v] => loadStore c k v
          | _ => c)
        (List.foldl (fun c kv => loadStore c kv.1 kv.2) CacheState.empty c.data)
        [[]]
      = List.foldl (fun c kv => loadStore c kv.1 kv.2) CacheState.empty c.data := rfl
  rw [hstep]
  show CacheState.get _ k = _
  unfold CacheState.get
  rw [fold_loadStore_lookup]
  show (match lookupA (CacheState.empty (α := Str)).data k with
        | some v => some v
        | none => lookupA c.data k) = lookupA c.data k
  rfl

/-- C3 counterexample: for the key "a" and value "b_c", Set then Get does
return the value, but the entry is NOT recovered by a Load of the
exported file: the exported line "a_b_c" splits into three fields at the
underscore delimiter and Load drops it.  The round trip therefore fails
for arbitrary k/v strings. -/
theorem cacheRoundTrip_counterexample :
    (((CacheState.empty (α := Str)).set (strL "a") (strL "b_c") true).1.get
       (strL "a") = some (strL "b_c")) ∧
    ((loadContent
        ((CacheState.empty (α := Str)).set (strL "a") (strL "b_c")
          true).1.exportContent).get (strL "a") = none) := by
  constructor <;> decide

/-- C3 (amended): for a key not already present, Set(k, v) followed by
Get(k) returns v; and whenever every key and value in the cache (the new
pair included) contains neither the underscore delimiter nor a newline,
every entry survives an Export followed by a Load of the exported content
— every lookup in the reloaded cache agrees with the original.  (The Go
Load additionally ignores its filename argument and always reads the
default path "weather.cache", so the cycle also requires exporting to
that path.) -/
theorem cacheRoundTripClean (c : CacheState Str) (k v : Str) (d : Bool)
    (hfresh : c.get k = none)
    (hclean : ∀ kv ∈ c.data, cleanStr kv.1 ∧ cleanStr kv.2)
    (hk : cleanStr k) (hv : cleanStr v) :
    ((c.set k v d).1.get k = some v) ∧
    (∀ k', (loadContent (c.set k v d).1.exportContent).get k'
            = (c.set k v d).1.get k') := by
  refine ⟨get_set_fresh c k v d hfresh, ?_⟩
  apply loadContent_exportContent
  intro kv hkv
  have hdata : (c.set k v d).1.data = c.data ++ [(k, v)] := by
    unfold CacheState.get at hfresh
    simp [CacheState.set, hfresh]
  rw [hdata, List.mem_append, List.mem_singleton] at hkv
  rcases hkv with h1 | h2
  · exact hclean kv h1
  · rw [h2]
    exact ⟨hk, hv⟩

theorem cacheRoundTripClean_witness :
    ((CacheState.empty (α := Str)).get (strL "a") = none) ∧
    (((CacheState.empty (α := Str)).set (strL "a") (strL "b") true).1.get
       (strL "a") = some (strL "b")) ∧
    ((loadContent
        ((CacheState.empty (α := Str)).set (strL "a") (strL "b")
          true).1.exportContent).get (strL "a")
      = ((CacheState.empty (α := Str)).set (strL "a") (strL "b") true).1.get
          (strL "a")) :=
  ⟨by decide,
   (cacheRoundTripClean (CacheState.empty (α := Str)) (strL "a") (strL "b")
      true (by decide) (by intro kv hkv; simp [CacheState.empty] at hkv)
      (by decide) (by decide)).1,
   (cacheRoundTripClean (CacheState.empty (α := Str)) (strL "a") (strL "b")
      true (by decide) (by intro kv hkv; simp [CacheState.empty] at hkv)
      (by decide) (by decide)).2 (strL "a")⟩

theorem get_set_isSome {α : Type} (c : CacheState α) (k k' : Str) (v : α)
    (d : Bool) (h : (c.get k').isSome) : ((c.set k v d).1.get k').isSome := by
  unfold CacheState.get at *
  unfold CacheState.set
  cases h1 : lookupA c.data k with
  | some w => simpa using h
  | none =>
    simp only [lookupA_append]
    cases h2 : lookupA c.data k' with
    | some w => simp
    | none => rw [h2] at h; simp at h

theorem get_set_self_isSome {α : Type} (c : CacheState α) (k : Str) (v : α)
    (d : Bool) : ((c.set k v d).1.get k).isSome := by
  unfold CacheState.get CacheState.set
  cases h1 : lookupA c.data k with
  | some w => simp [h1]
  | none => simp [lookupA_append, h1, lookupA]

theorem aggressivelyCache_isSome_mono (pts : List DataPoint) (c : WCache)
    (iata : Str) (k : Str) (h : (c.get k).isSome) :
    ((aggressivelyCache c iata pts).get k).isSome := by
  induction pts generalizing c with
  | nil => exact h
  | cons p rest ih =>
    exact ih _ (get_set_isSome c _ k p true h)

theorem aggressivelyCache_mem_isSome (pts : List DataPoint) (c : WCache)
    (iata : Str) (p : DataPoint) (hp : p ∈ pts) :
    ((aggressivelyCache c iata pts).get (weatherKey iata p.time)).isSome := by
  induction pts generalizing c with
  | nil => exact absurd hp (List.not_mem_nil p)
  | cons q rest ih =>
    rcases List.mem_cons.mp hp with h1 | h2
    · subst h1
      exact aggressivelyCache_isSome_mono rest _ iata _
        (get_set_self_isSome c _ p true)
    · exact ih _ h2

/-- C5: Resolver aggressive backfill: a resolver miss whose external fetch
returns the hourly points resp.hourly calls Set for every returned point p
under the key hash(location code ++ p.time) — the resulting cache is
exactly aggressivelyCache over all H points — so a subsequent Resolve at
the same location for any instant whose rounded hour is the timestamp of
one of those H points is a cache hit that performs no further external
fetch and leaves the cache unchanged. -/
theorem resolverBackfill (fetch : Airport → Int → Option WResp)
    (a : Airport) (t : Int) (c : WCache) (resp : WResp) (p : DataPoint)
    (a2 : Airport) (t2 : Int)
    (hmiss : c.get (weatherKey a.iata (roundHour t)) = none)
    (hfetch : fetch a (roundHour t) = some resp)
    (hp : p ∈ resp.hourly)
    (ha2 : a2.iata = a.iata)
    (ht2 : roundHour t2 = p.time) :
    ∃ r, weatherGet fetch a t c = some r ∧ r.fetched = true ∧
      r.cache = aggressivelyCache c a.iata resp.hourly ∧
      (r.cache.get (weatherKey a.iata p.time)).isSome ∧
      ∃ r2, weatherGet fetch a2 t2 r.cache = some r2 ∧ r2.fetched = false ∧
        r2.cache = r.cache := by
  have hsome := aggressivelyCache_mem_isSome resp.hourly c a.iata p hp
  refine ⟨⟨resp.currently, aggressivelyCache c a.iata resp.hourly, true⟩,
    ?_, rfl, rfl, hsome, ?_⟩
  · simp [weatherGet, hmiss, hfetch]
  · obtain ⟨q, hq⟩ := Option.isSome_iff_exists.mp hsome
    refine ⟨⟨q, aggressivelyCache c a.iata resp.hourly, false⟩, ?_, rfl, rfl⟩
    simp [weatherGet, ha2, ht2, hq]

theorem resolverBackfill_witness :
    ((CacheState.empty (α := DataPoint)).get
        (weatherKey (strL "JFK") (roundHour 1800)) = none) ∧
    (exFetch ⟨strL "JFK", strL "America/New_York"⟩ (roundHour 1800)
      = some ⟨⟨3600, 20, strL "rain", 1⟩,
              [⟨3600, 20, strL "rain", 1⟩, ⟨7200, 21, [], 0⟩]⟩) ∧
    ((⟨7200, 21, [], 0⟩ : DataPoint)
      ∈ [(⟨3600, 20, strL "rain", 1⟩ : DataPoint), ⟨7200, 21, [], 0⟩]) ∧
    (roundHour 7200 = 7200) ∧
    (∃ r, weatherGet exFetch ⟨strL "JFK", strL "America/New_York"⟩ 1800
            CacheState.empty = some r ∧ r.fetched = true ∧
      r.cache = aggressivelyCache CacheState.empty (strL "JFK")
        [⟨3600, 20, strL "rain", 1⟩, ⟨7200, 21, [], 0⟩] ∧
      (r.cache.get (weatherKey (strL "JFK") 7200)).isSome ∧
      ∃ r2, weatherGet exFetch ⟨strL "JFK", strL "America/New_York"⟩ 7200
              r.cache = some r2 ∧ r2.fetched = false ∧ r2.cache = r.cache) :=
  ⟨by decide, by decide, by decide, by decide,
   resolverBackfill exFetch ⟨strL "JFK", strL "America/New_York"⟩ 1800
     CacheState.empty
     ⟨⟨3600, 20, strL "rain", 1⟩,
      [⟨3600, 20, strL "rain", 1⟩, ⟨7200, 21, [], 0⟩]⟩
     ⟨7200, 21, [], 0⟩
     ⟨strL "JFK", strL "America/New_York"⟩ 7200
     (by decide) (by decide) (by decide) rfl (by decide)⟩

/-- C6: on a cache miss, the resolver fetches at the rounded hour and
returns the decoded Currently block of the response; when the provider
honors its contract that Currently carries the conditions at the requested
instant, the observation handed back is precisely the data point whose
timestamp is the originally requested rounded hour. -/
theorem resolverReturnsRequestedHour (fetch : Airport → Int → Option WResp)
    (a : Airport) (t : Int) (c : WCache) (resp : WResp)
    (hmiss : c.get (weatherKey a.iata (roundHour t)) = none)
    (hfetch : fetch a (roundHour t) = some resp)
    (hcur : resp.currently.time = roundHour t) :
    ∃ r, weatherGet fetch a t c = some r ∧ r.obs = resp.currently ∧
      r.obs.time = roundHour t := by
  refine ⟨⟨resp.currently, aggressivelyCache c a.iata resp.hourly, true⟩,
    ?_, rfl, hcur⟩
  simp [weatherGet, hmiss, hfetch]

theorem resolverReturnsRequestedHour_witness :
    ((CacheState.empty (α := DataPoint)).get
        (weatherKey (strL "LAX") (roundHour 7000)) = none) ∧
    (exFetch ⟨strL "LAX", strL "America/Los_Angeles"⟩ (roundHour 7000)
      = some ⟨⟨7200, 20, strL "rain", 1⟩,
              [⟨7200, 20, strL "rain", 1⟩, ⟨10800, 21, [], 0⟩]⟩) ∧
    ((⟨7200, 20, strL "rain", 1⟩ : DataPoint).time = roundHour 7000) ∧
    (∃ r, weatherGet exFetch ⟨strL "LAX", strL "America/Los_Angeles"⟩ 7000
            CacheState.empty = some r ∧
      r.obs = (⟨7200, 20, strL "rain", 1⟩ : DataPoint) ∧
      r.obs.time = roundHour 7000) :=
  ⟨by decide, by decide, by decide,
   resolverReturnsRequestedHour exFetch
     ⟨strL "LAX", strL "America/Los_Angeles"⟩ 7000 CacheState.empty
     ⟨⟨7200, 20, strL "rain", 1⟩,
      [⟨7200, 20, strL "rain", 1⟩, ⟨10800, 21, [], 0⟩]⟩
     (by decide) (by decide) (by decide)⟩

theorem parseStep_preserves (env : Env) (acc : PAcc) (k v : Str)
    (acc' : PAcc) (h : parseStep env acc k v = .ok acc') :
    acc'.f.scheduledDep = acc.f.scheduledDep ∧
    acc'.f.actualDep = acc.f.actualDep ∧
    acc'.f.delay = acc.f.delay := by
  unfold parseStep at h
  repeat' split at h
  all_goals
    first
    | exact Except.noConfusion h
    | (injection h with h; subst h; exact ⟨rfl, rfl, rfl⟩)

theorem parseLoop_preserves (env : Env) (row : List (Str × Str))
    (acc acc' : PAcc) (h : parseLoop env row acc = .ok acc') :
    acc'.f.scheduledDep = acc.f.scheduledDep ∧
    acc'.f.actualDep = acc.f.actualDep ∧
    acc'.f.delay = acc.f.delay := by
  induction row generalizing acc with
  | nil =>
    injection h with h
    subst h
    exact ⟨rfl, rfl, rfl⟩
  | cons p rest ih =>
    obtain ⟨k, v⟩ := p
    unfold parseLoop at h
    cases hs : parseStep env acc k v with
    | error e => rw [hs] at h; exact Except.noConfusion h
    | ok acc1 =>
      rw [hs] at h
      have h1 := parseStep_preserves env acc k v acc1 hs
      have h2 := ih acc1 h
      exact ⟨h2.1.trans h1.1, h2.2.1.trans h1.2.1, h2.2.2.trans h1.2.2⟩

theorem colOf_ne_cancelled (k : Str) (hk : k ≠ strL "CANCELLED") :
    colOf k ≠ Col.cancelled := by
  unfold colOf
  split_ifs <;> simp_all

theorem parseStep_cancelled_other (env : Env) (acc : PAcc) (k v : Str)
    (acc' : PAcc) (hk : colOf k ≠ Col.cancelled)
    (h : parseStep env acc k v = .ok acc') :
    acc'.f.cancelled = acc.f.cancelled := by
  unfold parseStep at h
  repeat' split at h
  all_goals
    first
    | exact Except.noConfusion h
    | (injection h with h; subst h; rfl)
    | simp_all

theorem parseStep_cancelled_set (env : Env) (acc : PAcc) (v : Str)
    (acc' : PAcc)
    (h : parseStep env acc (strL "CANCELLED") v = .ok acc') :
    acc'.f.cancelled = decide (v = strL "1.00") := by
  have hcol : colOf (strL "CANCELLED") = Col.cancelled := by decide
  unfold parseStep at h
  rw [hcol] at h
  injection h with h
  subst h
  rfl

theorem parseLoop_cancelled_frozen (env : Env) (row : List (Str × Str))
    (acc' : PAcc) :
    ∀ acc : PAcc, strL "CANCELLED" ∉ row.map Prod.fst →
      parseLoop env row acc = .ok acc' →
      acc'.f.cancelled = acc.f.cancelled := by
  induction row with
  | nil =>
    intro acc _ h
    injection h with h
    subst h
    rfl
  | cons p rest ih =>
    intro acc hnot h
    obtain ⟨k, v⟩ := p
    simp only [List.map_cons, List.mem_cons, not_or] at hnot
    unfold parseLoop at h
    cases hs : parseStep env acc k v with
    | error e => rw [hs] at h; exact Except.noConfusion h
    | ok acc1 =>
      rw [hs] at h
      have h1 : acc1.f.cancelled = acc.f.cancelled :=
        parseStep_cancelled_other env acc k v acc1
          (colOf_ne_cancelled k (fun he => hnot.1 he.symm)) hs
      exact (ih acc1 hnot.2 h).trans h1

theorem parseLoop_cancelled (env : Env) (row : List (Str × Str))
    (acc' : PAcc) :
    ∀ acc : PAcc, (row.map Prod.fst).Nodup →
      (strL "CANCELLED", strL "1.00") ∈ row →
      parseLoop env row acc = .ok acc' →
      acc'.f.cancelled = true := by
  induction row with
  | nil =>
    intro acc _ hmem _
    exact absurd hmem (List.not_mem_nil _)
  | cons p rest ih =>
    intro acc hnodup hmem h
    obtain ⟨k, v⟩ := p
    unfold parseLoop at h
    cases hs : parseStep env acc k v with
    | error e => rw [hs] at h; exact Except.noConfusion h
    | ok acc1 =>
      rw [hs] at h
      have hcons : (k :: rest.map Prod.fst).Nodup := by simpa using hnodup
      rcases List.mem_cons.mp hmem with h1 | h2
      · have hk : k = strL "CANCELLED" := (Prod.ext_iff.mp h1.symm).1
        have hv : v = strL "1.00" := (Prod.ext_iff.mp h1.symm).2
        subst hk
        subst hv
        have hset : acc1.f.cancelled = true := by
          rw [parseStep_cancelled_set env acc _ acc1 hs]
          decide
        have hnot : strL "CANCELLED" ∉ rest.map Prod.fst :=
          (List.nodup_cons.mp hcons).1
        rw [parseLoop_cancelled_frozen env rest acc' acc1 hnot h]
        exact hset
      · exact ih acc1 (List.nodup_cons.mp hcons).2 h2 h

theorem parseFinish_cancelled (env : Env) (acc : PAcc)
    (h : acc.f.cancelled = true) : parseFinish env acc = .ok acc.f := by
  unfold parseFinish
  rw [h]
  rfl

theorem parseFinish_delay (env : Env) (acc : PAcc) (f : Flight)
    (hcanc : acc.f.cancelled = false)
    (h : parseFinish env acc = .ok f) :
    (acc.weatherDelay = [] → f.delay = 0) ∧
    (∀ q : Rat, acc.weatherDelay ≠ [] → parseDec acc.depDelay = some q →
      f.delay = if q < 0 then 0 else q.floor) := by
  unfold parseFinish at h
  rw [hcanc] at h
  simp only [Bool.false_eq_true, if_false] at h
  repeat' split at h
  all_goals
    first
    | exact Except.noConfusion h
    | · injection h with h
        subst h
        constructor
        · intro hempty
          simp_all
        · intro q hne hq
          simp_all
          try (split <;> first | linarith | rfl)

/-- C7 counterexample: the §8 example row (DEP_DELAY "15", no
WEATHER_DELAY column) parses with delay 0, not 15: parse.parse computes
the delay from DEP_DELAY only when a nonempty WEATHER_DELAY value was
seen, and otherwise sets it to 0. -/
theorem delayClaim_counterexample :
    delayOf (parse exEnv exRow) = some 0 ∧
    delayOf (parse exEnv exRow) ≠ some 15 := by
  constructor <;> decide

/-- C7 (amended): for every non-cancelled row that parses successfully,
the record delay is the DEP_DELAY column value truncated to whole minutes
and floored at zero only when the row carried a nonempty WEATHER_DELAY
value; when the WEATHER_DELAY column is absent or empty the delay is 0.
In particular the §8 example row (no WEATHER_DELAY column) yields delay 0,
not 15. -/
theorem delayRule (env : Env) (row : List (Str × Str)) (acc : PAcc)
    (f : Flight) (hloop : parseLoop env row {} = .ok acc)
    (hcanc : acc.f.cancelled = false)
    (hfin : parseFinish env acc = .ok f) :
    parse env row = .ok f ∧
    (acc.weatherDelay = [] → f.delay = 0) ∧
    (∀ q : Rat, acc.weatherDelay ≠ [] → parseDec acc.depDelay = some q →
      f.delay = if q < 0 then 0 else q.floor) := by
  refine ⟨?_, parseFinish_delay env acc f hcanc hfin⟩
  unfold parse
  rw [hloop]
  exact hfin

theorem delayRule_witness :
    (parseLoop exEnv exRowWD {} = .ok (toAcc (parseLoop exEnv exRowWD {}))) ∧
    ((toAcc (parseLoop exEnv exRowWD {})).f.cancelled = false) ∧
    (parseFinish exEnv (toAcc (parseLoop exEnv exRowWD {}))
      = .ok (toFlight (parse exEnv exRowWD))) ∧
    (parse exEnv exRowWD = .ok (toFlight (parse exEnv exRowWD)) ∧
     ((toAcc (parseLoop exEnv exRowWD {})).weatherDelay = [] →
        (toFlight (parse exEnv exRowWD)).delay = 0) ∧
     (∀ q : Rat, (toAcc (parseLoop exEnv exRowWD {})).weatherDelay ≠ [] →
        parseDec (toAcc (parseLoop exEnv exRowWD {})).depDelay = some q →
        (toFlight (parse exEnv exRowWD)).delay
          = if q < 0 then 0 else q.floor)) :=
  ⟨rfl, by decide, rfl,
   delayRule exEnv exRowWD (toAcc (parseLoop exEnv exRowWD {}))
     (toFlight (parse exEnv exRowWD)) rfl (by decide) rfl⟩

/-- C10: for a row whose CANCELLED column holds "1.00" (column names
unique, as CSV headers are) that parses successfully, the parser skips
the departure-time and delay block entirely: the scheduled and actual
departures stay the zero time and the delay stays 0, and the serialized
output row therefore carries the zero time year "1", month "January",
day "1", both clocks "0000" and delay "0" rather than values derived
from the date and clock columns of the row. -/
theorem cancelledRowZeroes (env : Env) (row : List (Str × Str))
    (f : Flight) (hnodup : (row.map Prod.fst).Nodup)
    (hmem : (strL "CANCELLED", strL "1.00") ∈ row)
    (hok : parse env row = .ok f) :
    f.cancelled = true ∧ f.scheduledDep = zeroTime ∧
    f.actualDep = zeroTime ∧ f.delay = 0 ∧
    f.toSlice = [f.date, strL "1", strL "January", strL "1",
      f.carrier.name, f.origin.iata, f.destination.iata,
      strL "0000", strL "0000", strL "0", strL "true",
      f.cancellationCode, boolToStr f.diverted,
      ratToStr f.tempOrigin, f.precipTypeOrigin,
      ratToStr f.precipIntensityOrigin, ratToStr f.tempDest,
      f.precipTypeDest, ratToStr f.precipIntensityDest] := by
  unfold parse at hok
  cases hl : parseLoop env row {} with
  | error e => rw [hl] at hok; exact Except.noConfusion hok
  | ok acc =>
    rw [hl] at hok
    have hok2 : parseFinish env acc = .ok f := hok
    have hcanc : acc.f.cancelled = true :=
      parseLoop_cancelled env row acc {} hnodup hmem hl
    rw [parseFinish_cancelled env acc hcanc] at hok2
    injection hok2 with hok
    subst hok
    have hpres := parseLoop_preserves env row {} acc hl
    have hsched : acc.f.scheduledDep = zeroTime := hpres.1
    have hact : acc.f.actualDep = zeroTime := hpres.2.1
    have hdelay : acc.f.delay = 0 := hpres.2.2
    refine ⟨hcanc, hsched, hact, hdelay, ?_⟩
    unfold Flight.toSlice
    rw [hsched, hact, hdelay, hcanc]
    have e1 : natToStr zeroTime.year = strL "1" := by decide
    have e2 : monthName zeroTime.month = strL "January" := by decide
    have e3 : natToStr zeroTime.day = strL "1" := by decide
    have e4 : pad2 zeroTime.hour ++ pad2 zeroTime.minute = strL "0000" := by
      decide
    have e5 : intToStr 0 = strL "0" := by decide
    have e6 : boolToStr true = strL "true" := rfl
    rw [e1, e2, e3, e4, e5, e6]

theorem cancelledRowZeroes_witness :
    ((exRowCancelled.map Prod.fst).Nodup) ∧
    ((strL "CANCELLED", strL "1.00") ∈ exRowCancelled) ∧
    ((toFlight (parse exEnv exRowCancelled)).cancelled = true ∧
     (toFlight (parse exEnv exRowCancelled)).scheduledDep = zeroTime ∧
     (toFlight (parse exEnv exRowCancelled)).actualDep = zeroTime ∧
     (toFlight (parse exEnv exRowCancelled)).delay = 0 ∧
     (toFlight (parse exEnv exRowCancelled)).toSlice
       = [(toFlight (parse exEnv exRowCancelled)).date, strL "1",
          strL "January", strL "1",
          (toFlight (parse exEnv exRowCancelled)).carrier.name,
          (toFlight (parse exEnv exRowCancelled)).origin.iata,
          (toFlight (parse exEnv exRowCancelled)).destination.iata,
          strL "0000", strL "0000", strL "0", strL "true",
          (toFlight (parse exEnv exRowCancelled)).cancellationCode,
          boolToStr (toFlight (parse exEnv exRowCancelled)).diverted,
          ratToStr (toFlight (parse exEnv exRowCancelled)).tempOrigin,
          (toFlight (parse exEnv exRowCancelled)).precipTypeOrigin,
          ratToStr (toFlight (parse exEnv exRowCancelled)).precipIntensityOrigin,
          ratToStr (toFlight (parse exEnv exRowCancelled)).tempDest,
          (toFlight (parse exEnv exRowCancelled)).precipTypeDest,
          ratToStr (toFlight (parse exEnv exRowCancelled)).precipIntensityDest]) :=
  ⟨by decide, by decide,
   cancelledRowZeroes exEnv exRowCancelled
     (toFlight (parse exEnv exRowCancelled)) (by decide) (by decide) rfl⟩

theorem processRow_parse_error (env : Env)
    (fetch : Airport → Int → Option WResp) (st : PipeState)
    (row : List (Str × Str)) (e : Str)
    (h : parse env row = .error (.rowError e)) :
    processRow env fetch st row = some { st with skipped := st.skipped + 1 } := by
  simp [processRow, h]

theorem processRow_panic (env : Env)
    (fetch : Airport → Int → Option WResp) (st : PipeState)
    (row : List (Str × Str)) (e : Str)
    (h : parse env row = .error (.panic e)) :
    processRow env fetch st row = none := by
  simp [processRow, h]

theorem processRow_ok (env : Env) (fetch : Airport → Int → Option WResp)
    (st : PipeState) (row : List (Str × Str)) (f f' : Flight) (c' : WCache)
    (hpr : parse env row = .ok f)
    (hw : getWeatherData fetch f st.cache = some (f', c')) :
    processRow env fetch st row
      = some { st with cache := c', written := st.written ++ [f'.toSlice] } := by
  simp [processRow, hpr, hw]

theorem processRow_fatal (env : Env) (fetch : Airport → Int → Option WResp)
    (st : PipeState) (row : List (Str × Str)) (f : Flight)
    (hpr : parse env row = .ok f)
    (hw : getWeatherData fetch f st.cache = none) :
    processRow env fetch st row = none := by
  simp [processRow, hpr, hw]

theorem runPipeline_counts (env : Env)
    (fetch : Airport → Int → Option WResp)
    (rows : List (List (Str × Str))) :
    ∀ st st' : PipeState, runPipeline env fetch rows st = some st' →
      st'.written.length
        = st.written.length + (rows.filter (parseOk env)).length ∧
      st'.skipped + (rows.filter (parseOk env)).length
        = st.skipped + rows.length ∧
      st'.inflight = st.inflight := by
  induction rows with
  | nil =>
    intro st st' h
    injection h with h
    subst h
    simp
  | cons row rest ih =>
    intro st st' h
    unfold runPipeline at h
    cases hpr : parse env row with
    | error e =>
      cases e with
      | panic msg =>
        rw [processRow_panic env fetch st row msg hpr] at h
        exact Option.noConfusion h
      | rowError msg =>
        rw [processRow_parse_error env fetch st row msg hpr] at h
        obtain ⟨ih1, ih2, ih3⟩ := ih _ st' h
        have hfil : (row :: rest).filter (parseOk env)
            = rest.filter (parseOk env) := by
          simp [List.filter_cons, parseOk, hpr]
        rw [hfil]
        refine ⟨by simpa using ih1, ?_, by simpa using ih3⟩
        simp only [List.length_cons]
        simp at ih2
        omega
    | ok f =>
      cases hw : getWeatherData fetch f st.cache with
      | none =>
        rw [processRow_fatal env fetch st row f hpr hw] at h
        exact Option.noConfusion h
      | some fc =>
        rw [processRow_ok env fetch st row f fc.1 fc.2 hpr (by simpa using hw)]
          at h
        obtain ⟨ih1, ih2, ih3⟩ := ih _ st' h
        have hfil : (row :: rest).filter (parseOk env)
            = row :: rest.filter (parseOk env) := by
          simp [List.filter_cons, parseOk, hpr]
        rw [hfil]
        refine ⟨?_, ?_, by simpa using ih3⟩
        · simp only [List.length_cons]
          simp at ih1
          omega
        · simp only [List.length_cons]
          simp at ih2
          omega

theorem weatherGet_total (fetch : Airport → Int → Option WResp)
    (a : Airport) (t : Int) (c : WCache)
    (hfetch : ∀ a t, fetch a t ≠ none) :
    weatherGet fetch a t c ≠ none := by
  unfold weatherGet
  cases hg : c.get (weatherKey a.iata (roundHour t)) with
  | some p => simp [hg]
  | none =>
    cases hf : fetch a (roundHour t) with
    | none => exact absurd hf (hfetch a _)
    | some resp => simp [hg, hf]

theorem getWeatherData_total (fetch : Airport → Int → Option WResp)
    (f : Flight) (c : WCache) (hfetch : ∀ a t, fetch a t ≠ none) :
    getWeatherData fetch f c ≠ none := by
  unfold getWeatherData
  cases h1 : weatherGet fetch f.origin f.scheduledDep.unix c with
  | none => exact absurd h1 (weatherGet_total fetch _ _ _ hfetch)
  | some r1 =>
    cases h2 : weatherGet fetch f.destination f.scheduledDep.unix r1.cache with
    | none => exact absurd h2 (weatherGet_total fetch _ _ _ hfetch)
    | some r2 => simp [h2]

/-- C1: Pipeline accounting: for a run of a file whose rows all reach a
terminal state (the run completes, i.e. no fatal resolver error), the
printer writes exactly the number of records of the rows that parse
successfully, written plus skipped equals the total number of rows read
(each row accounted exactly once), and the in-flight counter — which is
incremented once before each row is dispatched and decremented exactly
once on each terminal path (skip or write) — ends back at zero. -/
theorem pipelineAccounting (env : Env)
    (fetch : Airport → Int → Option WResp)
    (rows : List (List (Str × Str))) (c0 : WCache) (st' : PipeState)
    (h : runPipeline env fetch rows ⟨c0, 0, [], 0⟩ = some st') :
    st'.written.length = (rows.filter (parseOk env)).length ∧
    st'.written.length + st'.skipped = rows.length ∧
    st'.inflight = 0 := by
  obtain ⟨h1, h2, h3⟩ := runPipeline_counts env fetch rows ⟨c0, 0, [], 0⟩ st' h
  simp at h1 h2 h3
  refine ⟨h1, ?_, h3⟩
  omega

theorem pipelineAccounting_witness :
    (runPipeline exEnv exFetch [exRow, exRowBad, exRow]
        ⟨CacheState.empty, 0, [], 0⟩
      = some (toSt (runPipeline exEnv exFetch [exRow, exRowBad, exRow]
          ⟨CacheState.empty, 0, [], 0⟩))) ∧
    ((toSt (runPipeline exEnv exFetch [exRow, exRowBad, exRow]
        ⟨CacheState.empty, 0, [], 0⟩)).written.length
      = (([exRow, exRowBad, exRow]).filter (parseOk exEnv)).length ∧
     (toSt (runPipeline exEnv exFetch [exRow, exRowBad, exRow]
        ⟨CacheState.empty, 0, [], 0⟩)).written.length
       + (toSt (runPipeline exEnv exFetch [exRow, exRowBad, exRow]
           ⟨CacheState.empty, 0, [], 0⟩)).skipped
      = ([exRow, exRowBad, exRow] : List (List (Str × Str))).length ∧
     (toSt (runPipeline exEnv exFetch [exRow, exRowBad, exRow]
        ⟨CacheState.empty, 0, [], 0⟩)).inflight = 0) :=
  ⟨rfl,
   pipelineAccounting exEnv exFetch [exRow, exRowBad, exRow]
     CacheState.empty _ rfl⟩

/-- C8: Error asymmetry.  First conjunct: a row whose parse fails with a
returned error (a bad reference code, a failed location load, an
unparseable timestamp or delay — every error parse.go returns) is skipped
— the counter is released, the skip count incremented — and the pipeline
simply continues with the remaining rows.  Second conjunct: when a row
parses and its weather resolution hits a provider error, the whole run
aborts immediately (weather.Get calls log.Fatalf), whatever rows remain;
the resolver failure is never converted into a row skip.  Third conjunct:
such returned parse failures are never fatal — under a provider that
never errors, a run over any rows free of the parse-time panic completes.
(The panic — time.Time.In on a nil origin location, for a row with a
parseable clock but no valid ORIGIN column — kills the Go process and is
fatal in the model too, fourth conjunct; it is a crash, not a parse
failure the code reports and skips.  weather.Get never returns a non-nil
error, so Worker's recoverable branch after it is dead code.) -/
theorem errorAsymmetry (env : Env) (fetch : Airport → Int → Option WResp) :
    (∀ (row : List (Str × Str)) (rows : List (List (Str × Str))) (e : Str)
        (st : PipeState), parse env row = .error (.rowError e) →
      runPipeline env fetch (row :: rows) st
        = runPipeline env fetch rows { st with skipped := st.skipped + 1 }) ∧
    (∀ (pre : List (List (Str × Str))) (row : List (Str × Str))
        (post : List (List (Str × Str))) (f : Flight) (st st1 : PipeState),
      runPipeline env fetch pre st = some st1 →
      parse env row = .ok f →
      getWeatherData fetch f st1.cache = none →
      runPipeline env fetch (pre ++ row :: post) st = none) ∧
    ((∀ a t, fetch a t ≠ none) →
      ∀ (rows : List (List (Str × Str))) (st : PipeState),
        (∀ row ∈ rows, isPanic (parse env row) = false) →
        runPipeline env fetch rows st ≠ none) ∧
    (∀ (row : List (Str × Str)) (rows : List (List (Str × Str))) (e : Str)
        (st : PipeState), parse env row = .error (.panic e) →
      runPipeline env fetch (row :: rows) st = none) := by
  refine ⟨?_, ?_, ?_, ?_⟩
  · intro row rows e st hpr
    show (match processRow env fetch st row with
          | none => none
          | some st' => runPipeline env fetch rows st') = _
    rw [processRow_parse_error env fetch st row e hpr]
  · intro pre
    induction pre with
    | nil =>
      intro row post f st st1 hrun hpr hw
      injection hrun with hrun
      subst hrun
      show runPipeline env fetch (row :: post) st = none
      unfold runPipeline
      rw [processRow_fatal env fetch st row f hpr hw]
    | cons p pre' ih =>
      intro row post f st st1 hrun hpr hw
      unfold runPipeline at hrun
      cases hp : processRow env fetch st p with
      | none => rw [hp] at hrun; exact Option.noConfusion hrun
      | some st2 =>
        rw [hp] at hrun
        have hrun2 : runPipeline env fetch pre' st2 = some st1 := hrun
        have hstep : runPipeline env fetch ((p :: pre') ++ row :: post) st
            = runPipeline env fetch (pre' ++ row :: post) st2 := by
          show (match processRow env fetch st p with
                | none => none
                | some st' =>
                  runPipeline env fetch (pre' ++ row :: post) st') = _
          rw [hp]
        rw [hstep]
        exact ih row post f st2 st1 hrun2 hpr hw
  · intro hfetch rows
    induction rows with
    | nil => intro st _ h; exact Option.noConfusion h
    | cons row rest ih =>
      intro st hnp
      have hnp1 : isPanic (parse env row) = false :=
        hnp row (List.mem_cons_self _ _)
      have hnprest : ∀ r ∈ rest, isPanic (parse env r) = false :=
        fun r hr => hnp r (List.mem_cons_of_mem _ hr)
      unfold runPipeline
      cases hpr : parse env row with
      | error e =>
        cases e with
        | panic msg => simp [isPanic, hpr] at hnp1
        | rowError msg =>
          rw [processRow_parse_error env fetch st row msg hpr]
          exact ih _ hnprest
      | ok f =>
        cases hw : getWeatherData fetch f st.cache with
        | none =>
          exact absurd hw (getWeatherData_total fetch f st.cache hfetch)
        | some fc =>
          rw [processRow_ok env fetch st row f fc.1 fc.2 hpr
            (by simpa using hw)]
          exact ih _ hnprest
  · intro row rows e st hpr
    show (match processRow env fetch st row with
          | none => none
          | some st' => runPipeline env fetch rows st') = _
    rw [processRow_panic env fetch st row e hpr]

theorem errorAsymmetry_witness :
    (parse exEnv exRowBad
      = .error (.rowError (strL "could not find airline"))) ∧
    (runPipeline exEnv failFetch [exRowBad] ⟨CacheState.empty, 0, [], 0⟩
      = runPipeline exEnv failFetch []
          ⟨CacheState.empty, 0, [], 0 + 1⟩) ∧
    (runPipeline exEnv failFetch [] ⟨CacheState.empty, 0, [], 0⟩
      = some ⟨CacheState.empty, 0, [], 0⟩) ∧
    (parse exEnv exRow = .ok (toFlight (parse exEnv exRow))) ∧
    (getWeatherData failFetch (toFlight (parse exEnv exRow))
        CacheState.empty = none) ∧
    (runPipeline exEnv failFetch ([] ++ exRow :: [])
        ⟨CacheState.empty, 0, [], 0⟩ = none) ∧
    ((∀ a t, exFetch a t ≠ none) ∧
     (∀ row ∈ [exRow, exRowBad], isPanic (parse exEnv row) = false) ∧
     runPipeline exEnv exFetch [exRow, exRowBad]
        ⟨CacheState.empty, 0, [], 0⟩ ≠ none) ∧
    (parse exEnv exRowPanic
      = .error (.panic (strL "nil origin location"))) ∧
    (runPipeline exEnv exFetch [exRowPanic] ⟨CacheState.empty, 0, [], 0⟩
      = none) :=
  ⟨rfl,
   (errorAsymmetry exEnv failFetch).1 exRowBad []
     (strL "could not find airline") ⟨CacheState.empty, 0, [], 0⟩ rfl,
   rfl, rfl, rfl,
   (errorAsymmetry exEnv failFetch).2.1 [] exRow []
     (toFlight (parse exEnv exRow)) ⟨CacheState.empty, 0, [], 0⟩
     ⟨CacheState.empty, 0, [], 0⟩ rfl rfl rfl,
   ⟨fun a t h => Option.noConfusion h, by decide,
    (errorAsymmetry exEnv exFetch).2.2.1 (fun a t h => Option.noConfusion h)
      [exRow, exRowBad] ⟨CacheState.empty, 0, [], 0⟩ (by decide)⟩,
   rfl,
   (errorAsymmetry exEnv exFetch).2.2.2 exRowPanic []
     (strL "nil origin location") ⟨CacheState.empty, 0, [], 0⟩ rfl⟩
